import Mathlib

/-!
Verification of the HTTP/1.1 server core (`src/main.rs`) against its
natural-language specification.

Modelling conventions:
* Byte sequences on the wire (request stream, response bytes, file contents,
  request/response bodies) are modelled as Lean `String`s, i.e. sequences of
  characters.  All literals the program manipulates are ASCII, where the
  correspondence between characters and bytes is exact; splitting the stream
  at `'\n'` commutes with UTF-8 decoding because the byte 0x0A never occurs
  inside a multi-byte UTF-8 sequence.
* A fallible Rust computation is modelled by `RResult`: `ok` for `Ok`,
  `err` for `Err(Error)` (carrying the error message built at the `Err`
  site), and `panicked` for a thread panic (the `panic` macro or
  out-of-bounds indexing).
* The `BufReader::read_until(b'\n')` loop of `read_request` is modelled by
  first cutting the whole input into the exact chunks successive
  `read_until` calls return (`toLines`) and then folding over them
  (`readLoop`); `fill_buf`-then-`consume` after the header block is the
  concatenation of the remaining chunks, which is exactly the unread
  remainder of the stream (`toLines_flatten`).
* The filesystem collaborator (spec section 6:
  `read(path) -> bytes | NotFoundError | OtherIOError`,
  `write(path, bytes) -> Ok | IOError`) is modelled by `FS`: `files` is the
  store, and paths listed in `broken` fail with a non-`NotFound` I/O error.
-/

set_option maxRecDepth 8192

/-- HTTP status codes used by the server (source: `enum Status`). -/
inductive Status where
  | OK
  | Created
  | NotFound
  | InternalServerError
deriving DecidableEq

/-- Parsed HTTP request (source: `struct Request`).  Header names and values
are kept as an ordered list of pairs, duplicates allowed, exactly as the
source stores them in a `Vec`. -/
structure Request where
  method : String
  path : String
  http_info : String
  headers : List (String × String)
  body : String
deriving DecidableEq

/-- HTTP response (source: `struct Response`). -/
structure Response where
  status : Status
  body : Option String
  content_type : Option String
deriving DecidableEq

/-- Outcome of a fallible Rust computation: `Ok`, `Err(Error)` carrying the
error message, or a thread panic (from the panic macro or from
out-of-bounds slice indexing). -/
inductive RResult (α : Type) where
  | ok (a : α)
  | err (msg : String)
  | panicked (msg : String)
deriving DecidableEq

/-- Functorial action on the `ok` case, propagating failures. -/
def RResult.map {α β : Type} (f : α → β) : RResult α → RResult β
  | .ok a => .ok (f a)
  | .err m => .err m
  | .panicked m => .panicked m

/-- Rust `str::split` with a single-character pattern: every occurrence of
`sep` separates fields, adjacent separators produce empty fields, and the
empty input yields one empty field. -/
def splitChar (sep : Char) : List Char → List (List Char)
  | [] => [[]]
  | c :: cs =>
      if c = sep then [] :: splitChar sep cs
      else (c :: (splitChar sep cs).headD []) :: (splitChar sep cs).tail

/-- Rust `[&str]::join` with a single-character separator. -/
def joinChar (sep : Char) : List (List Char) → List Char
  | [] => []
  | [x] => x
  | x :: y :: xs => x ++ sep :: joinChar sep (y :: xs)

/-- Rust `str::split_once(": ")`: split at the first occurrence of the
two-character needle `": "`, or `none` when it does not occur. -/
def splitOnceColonSpace : List Char → Option (List Char × List Char)
  | ':' :: ' ' :: rest => some ([], rest)
  | c :: cs => (splitOnceColonSpace cs).map (fun p => (c :: p.1, p.2))
  | [] => none

/-- Rust `str::strip_suffix("\r\n")`. -/
def stripCRLF (l : List Char) : Option (List Char) :=
  match l.reverse with
  | '\n' :: '\r' :: rest => some rest.reverse
  | _ => none

/-- Rust `str::starts_with` on the character model. -/
def strStartsWith (s p : String) : Bool := p.data.isPrefixOf s.data

/-- Chunks produced by successive `read_until(b'\n')` calls on the stream:
each chunk runs up to and including the first `'\n'` (the final chunk may
lack the terminator when the stream ends without one); the exhausted stream
produces no further chunks (`read_until` returns 0 bytes). -/
def toLines : List Char → List (List Char)
  | [] => []
  | c :: cs =>
      if c = '\n' then ['\n'] :: toLines cs
      else
        match toLines cs with
        | [] => [[c]]
        | l :: ls => (c :: l) :: ls

/-- The `Request` value `read_request` starts from before reading anything. -/
def emptyRequest : Request :=
  { method := "", path := "", http_info := "", headers := [], body := "" }

/-- Linear scan behind `Request::get_header`. -/
def getHeaderGo (key : String) : List (String × String) → Option String
  | [] => none
  | (k, v) :: t => if key = k then some v else getHeaderGo key t

/-- Source: `Request::get_header` — value of the first header whose name
equals `key` exactly (case-sensitive string equality), else `None`. -/
def Request.get_header (req : Request) (key : String) : Option String :=
  getHeaderGo key req.headers

/-- Body of the line-reading loop of `read_request`, acting on the chunk
list produced by `toLines`.  Mirrors the source loop: a zero-byte read or a
bare `"\r\n"` line breaks out (returning the unread chunks); other lines
must end in `"\r\n"`; the first line must split on spaces into exactly
three tokens or the thread panics; later lines containing `": "` become
headers, with a header named exactly `Content-Length` setting the
`has_body` flag; other lines are silently skipped. -/
def readLoop : List (List Char) → Bool → Bool → Request →
    RResult (Request × Bool × List (List Char))
  | [], _, hasBody, req => .ok (req, hasBody, [])
  | buf :: restLines, isFirst, hasBody, req =>
      if buf = [] then .ok (req, hasBody, restLines)
      else if buf = ['\r', '\n'] then .ok (req, hasBody, restLines)
      else
        match stripCRLF buf with
        | none => .err "error stripping CRLF out"
        | some line =>
            if isFirst then
              match splitChar ' ' line with
              | [m, p, v] =>
                  readLoop restLines false hasBody
                    { req with method := String.mk m, path := String.mk p,
                               http_info := String.mk v }
              | _ => .panicked "Bad general-header format"
            else
              match splitOnceColonSpace line with
              | some kv =>
                  readLoop restLines isFirst
                    (hasBody || (String.mk kv.1 == "Content-Length"))
                    { req with headers := req.headers ++ [(String.mk kv.1, String.mk kv.2)] }
              | none => readLoop restLines isFirst hasBody req

/-- Source: `read_request` — run the header loop, then, only when the
`has_body` flag was set, drain everything still unread in the buffer as the
message body. -/
def read_request (input : String) : RResult Request :=
  match readLoop (toLines input.data) true false emptyRequest with
  | .err e => .err e
  | .panicked m => .panicked m
  | .ok (req, hasBody, restLines) =>
      if hasBody then .ok { req with body := String.mk restLines.flatten }
      else .ok req

/-- Source: status line text per `Status` in `write_response`. -/
def statusText : Status → String
  | .OK => "200 OK"
  | .Created => "201 Created"
  | .NotFound => "404 Not Found"
  | .InternalServerError => "500 Internal Server Error"

/-- Source: `write_response` — the exact byte sequence written to the
stream: status line terminated by `"\r\n"`; `Content-Type`/`Content-Length`
lines (terminated by bare `"\n"`) only when body and content type are both
present; the `"\r\n"` blank line; then the raw body bytes when present. -/
def write_response (res : Response) : String :=
  "HTTP/1.1 " ++ statusText res.status ++ "\r\n"
  ++ (match res.body, res.content_type with
      | some body, some content_type =>
          "Content-Type: " ++ content_type ++ "\n"
          ++ "Content-Length: " ++ toString body.length ++ "\n"
      | _, _ => "")
  ++ "\r\n"
  ++ (match res.body with
      | some body => body
      | none => "")

/-- Result of the filesystem collaborator `fs::read`. -/
inductive ReadResult where
  | ok (b : String)
  | notFound
  | otherError
deriving DecidableEq

/-- Filesystem collaborator state (spec section 6): `files` maps resolved
paths to contents; paths in `broken` fail with a non-`NotFound` I/O error. -/
structure FS where
  files : List (String × String)
  broken : List String
deriving DecidableEq

/-- First binding of `p` in the store (later writes shadow earlier ones). -/
def lookupStore (p : String) : List (String × String) → Option String
  | [] => none
  | (k, v) :: t => if k = p then some v else lookupStore p t

/-- Collaborator `fs::read`: broken paths give a non-`NotFound` error,
absent paths give `NotFound`, stored paths give their bytes. -/
def fsRead (fs : FS) (p : String) : ReadResult :=
  if p ∈ fs.broken then .otherError
  else
    match lookupStore p fs.files with
    | some b => .ok b
    | none => .notFound

/-- Collaborator `fs::write`: unconditional overwrite, failing only on
broken paths (`none` models the `Err` case). -/
def fsWrite (fs : FS) (p : String) (b : String) : Option FS :=
  if p ∈ fs.broken then none
  else some { fs with files := (p, b) :: fs.files }

/-- Rust `Path::new(dirpath).join(filename)`, modelled as separator-joined
concatenation.  Both file handlers resolve paths through this same
function, and the claims depend only on equal inputs resolving to equal
paths, which concatenation preserves. -/
def pathJoin (dirpath filename : String) : String := dirpath ++ "/" ++ filename

/-- Source: `handle_get_root`. -/
def handle_get_root (_req : Request) : RResult Response :=
  .ok { status := .OK, body := none, content_type := none }

/-- Source: `handle_get_echo` — path segments after the second `/`,
rejoined with `/`, echoed as a `text/plain` body. -/
def handle_get_echo (req : Request) : RResult Response :=
  let parts := (splitChar '/' req.path.data).drop 2
  let param := String.mk (joinChar '/' parts)
  .ok { status := .OK, body := some param, content_type := some "text/plain" }

/-- Source: `handle_get_user_agent` — first `User-Agent` header value, or
the empty string when absent. -/
def handle_get_user_agent (req : Request) : RResult Response :=
  .ok { status := .OK,
        body := some ((req.get_header "User-Agent").getD ""),
        content_type := some "text/plain" }

/-- Source: `handle_get_file` — `parts[0]` indexing (a panic when the
dropped split is empty, unreachable for `/files/`-prefixed paths), then the
directory check (`Err` when unconfigured), then `fs::read` mapped to
200/404/500. -/
def handle_get_file (req : Request) (dir : Option String) (fs : FS) : RResult Response :=
  match (splitChar '/' req.path.data).drop 2 with
  | [] => .panicked "index out of bounds"
  | filename :: _ =>
      match dir with
      | none => .err "error getting directory path"
      | some dirpath =>
          let filepath := pathJoin dirpath (String.mk filename)
          match fsRead fs filepath with
          | .ok binary =>
              .ok { status := .OK, body := some binary,
                    content_type := some "application/octet-stream" }
          | .notFound =>
              .ok { status := .NotFound, body := none, content_type := none }
          | .otherError =>
              .ok { status := .InternalServerError, body := none, content_type := none }

/-- Source: `handle_post_file` — same filename extraction and directory
check, then `fs::write` of the request body: success gives `201 Created`
with `application/octet-stream` content type and no body, failure gives
`500` with neither. -/
def handle_post_file (req : Request) (dir : Option String) (fs : FS) :
    RResult (Response × FS) :=
  match (splitChar '/' req.path.data).drop 2 with
  | [] => .panicked "index out of bounds"
  | filename :: _ =>
      match dir with
      | none => .err "error getting directory path"
      | some dirpath =>
          let filepath := pathJoin dirpath (String.mk filename)
          match fsWrite fs filepath req.body with
          | some fs2 =>
              .ok ({ status := .Created, body := none,
                     content_type := some "application/octet-stream" }, fs2)
          | none =>
              .ok ({ status := .InternalServerError, body := none,
                     content_type := none }, fs)

/-- The not-found fallback response of the route match. -/
def notFoundResponse : Response :=
  { status := .NotFound, body := none, content_type := none }

/-- Source: `handle_connection` — parse the request, dispatch through the
route match in source order, serialize the response.  The `ok` payload is
the byte sequence written back to the client (with the possibly-updated
filesystem); an `err`/`panicked` outcome means the handler returned before
`write_response`, so nothing was written. -/
def handle_connection (input : String) (dir : Option String) (fs : FS) :
    RResult (String × FS) :=
  match read_request input with
  | .err e => .err e
  | .panicked m => .panicked m
  | .ok req =>
      let routed : RResult (Response × FS) :=
        if req.method = "GET" ∧ req.path = "/" then
          (handle_get_root req).map (fun r => (r, fs))
        else if req.method = "GET" ∧ strStartsWith req.path "/echo/" = true then
          (handle_get_echo req).map (fun r => (r, fs))
        else if req.method = "GET" ∧ req.path = "/user-agent" then
          (handle_get_user_agent req).map (fun r => (r, fs))
        else if req.method = "GET" ∧ strStartsWith req.path "/files/" = true then
          (handle_get_file req dir fs).map (fun r => (r, fs))
        else if req.method = "POST" ∧ strStartsWith req.path "/files/" = true then
          handle_post_file req dir fs
        else .ok (notFoundResponse, fs)
      match routed with
      | .err e => .err e
      | .panicked m => .panicked m
      | .ok (res, fs2) => .ok (write_response res, fs2)

/-- Body of the parsed request when parsing returned one, else `none`. -/
def resultBody : RResult Request → Option String
  | .ok r => some r.body
  | _ => none

/-- Whether a header line's parsed name is something other than the exact
string `Content-Length` (lines without `": "` have no parsed name). -/
def keyNotCL (s : String) : Bool :=
  match splitOnceColonSpace s.data with
  | some kv => !(String.mk kv.1 == "Content-Length")
  | none => true

/-- One header line as it appears on the wire, `"\r\n"`-terminated, as a
chunk of characters. -/
def lineChunk (s : String) : List Char := s.data ++ ['\r', '\n']

/-- Wire form of a header block: each line `"\r\n"`-terminated. -/
def headerBlock : List String → String
  | [] => ""
  | l :: t => l ++ "\r\n" ++ headerBlock t

/-- A full request stream: request line, header block, blank line, then
arbitrary trailing data. -/
def mkInput (reqline : String) (hls : List String) (trailing : String) : String :=
  reqline ++ "\r\n" ++ headerBlock hls ++ "\r\n" ++ trailing

theorem splitChar_ne_nil (sep : Char) (l : List Char) : splitChar sep l ≠ [] := by
  cases l with
  | nil => simp [splitChar]
  | cons c cs =>
      by_cases h : c = sep <;> simp [splitChar, h]

theorem joinChar_splitChar (sep : Char) (l : List Char) :
    joinChar sep (splitChar sep l) = l := by
  induction l with
  | nil => rfl
  | cons c cs ih =>
      by_cases h : c = sep
      · rcases hs : splitChar sep cs with _ | ⟨t, ts⟩
        · exact absurd hs (splitChar_ne_nil sep cs)
        · simp only [splitChar, if_pos h, hs]
          rw [hs] at ih
          simpa [joinChar, h] using ih
      · rcases hs : splitChar sep cs with _ | ⟨t, ts⟩
        · exact absurd hs (splitChar_ne_nil sep cs)
        · simp only [splitChar, if_neg h, hs]
          rw [hs] at ih
          cases ts with
          | nil => simpa [joinChar] using ih
          | cons u us => simpa [joinChar] using ih

theorem splitChar_files (r : List Char) :
    splitChar '/' ('/' :: 'f' :: 'i' :: 'l' :: 'e' :: 's' :: '/' :: r) =
      [] :: ['f', 'i', 'l', 'e', 's'] :: splitChar '/' r := by
  rcases hs : splitChar '/' r with _ | ⟨t, ts⟩
  · exact absurd hs (splitChar_ne_nil '/' r)
  · simp [splitChar, hs]

theorem splitChar_echo (r : List Char) :
    splitChar '/' ('/' :: 'e' :: 'c' :: 'h' :: 'o' :: '/' :: r) =
      [] :: ['e', 'c', 'h', 'o'] :: splitChar '/' r := by
  rcases hs : splitChar '/' r with _ | ⟨t, ts⟩
  · exact absurd hs (splitChar_ne_nil '/' r)
  · simp [splitChar, hs]

theorem stripCRLF_append (l : List Char) : stripCRLF (l ++ ['\r', '\n']) = some l := by
  simp [stripCRLF, List.reverse_append]

theorem toLines_cons_line (l : List Char) (rest : List Char) (h : '\n' ∉ l) :
    toLines (l ++ '\r' :: '\n' :: rest) = (l ++ ['\r', '\n']) :: toLines rest := by
  induction l with
  | nil => simp [toLines]
  | cons c cs ih =>
      have hc : c ≠ '\n' := fun hc => h (hc ▸ List.mem_cons_self c cs)
      have hcs : '\n' ∉ cs := fun hm => h (List.mem_cons_of_mem c hm)
      have ih' := ih hcs
      simp [toLines, hc, ih']

theorem toLines_eq_nil (l : List Char) : toLines l = [] ↔ l = [] := by
  cases l with
  | nil => simp [toLines]
  | cons c cs =>
      simp only [toLines]
      by_cases h : c = '\n'
      · simp [h]
      · rcases ht : toLines cs with _ | ⟨x, xs⟩ <;> simp [h, ht]

theorem toLines_flatten (l : List Char) : (toLines l).flatten = l := by
  induction l with
  | nil => rfl
  | cons c cs ih =>
      by_cases h : c = '\n'
      · subst h; simp [toLines, ih]
      · simp only [toLines, if_neg h]
        rcases ht : toLines cs with _ | ⟨x, xs⟩
        · have : cs = [] := (toLines_eq_nil cs).mp ht
          subst this; simp
        · rw [ht] at ih
          simpa using ih

theorem strStartsWith_iff (s p : String) :
    strStartsWith s p = true ↔ ∃ r : List Char, s.data = p.data ++ r := by
  constructor
  · intro h
    have := List.isPrefixOf_iff_prefix.mp h
    rcases this with ⟨t, ht⟩
    exact ⟨t, ht.symm⟩
  · intro ⟨r, hr⟩
    exact List.isPrefixOf_iff_prefix.mpr ⟨r, hr.symm⟩

theorem files_path_shape (p : String) (h : strStartsWith p "/files/" = true) :
    ∃ r : List Char, p.data = '/' :: 'f' :: 'i' :: 'l' :: 'e' :: 's' :: '/' :: r := by
  rcases (strStartsWith_iff p "/files/").mp h with ⟨r, hr⟩
  exact ⟨r, hr⟩

theorem lineChunk_ne_nil (s : String) : lineChunk s ≠ [] := by
  simp [lineChunk]

theorem lineChunk_eq_crlf (s : String) (h : s.data ≠ []) : lineChunk s ≠ ['\r', '\n'] := by
  intro hc
  have hlen := congrArg List.length hc
  simp [lineChunk] at hlen
  exact h (List.length_eq_zero.mp hlen)

theorem readLoop_blank (chunks : List (List Char)) (isF hb : Bool) (req : Request) :
    readLoop (['\r', '\n'] :: chunks) isF hb req = .ok (req, hb, chunks) := by
  simp [readLoop]

theorem readLoop_first (l : List Char) (chunks : List (List Char)) (hb : Bool)
    (req : Request) (hne : l ≠ []) (mt pt vt : List Char)
    (hsplit : splitChar ' ' l = [mt, pt, vt]) :
    readLoop ((l ++ ['\r', '\n']) :: chunks) true hb req =
      readLoop chunks false hb
        { req with method := String.mk mt, path := String.mk pt, http_info := String.mk vt } := by
  have h1 : l ++ ['\r', '\n'] ≠ [] := by simp
  have h2 : l ++ ['\r', '\n'] ≠ ['\r', '\n'] := by
    intro hc
    have hlen := congrArg List.length hc
    simp at hlen
    exact hne hlen
  simp [readLoop, h1, h2, stripCRLF_append, hsplit]

theorem readLoop_headers_noCL (hls : List String) (chunks : List (List Char))
    (req : Request)
    (h : ∀ l ∈ hls, l.data ≠ [] ∧ keyNotCL l = true) :
    ∃ hs, readLoop (hls.map lineChunk ++ chunks) false false req =
      readLoop chunks false false { req with headers := req.headers ++ hs } := by
  induction hls generalizing req with
  | nil =>
      refine ⟨[], ?_⟩
      simp
  | cons l t ih =>
      obtain ⟨hne, hcl⟩ := h l (List.mem_cons_self l t)
      have hrest : ∀ x ∈ t, x.data ≠ [] ∧ keyNotCL x = true :=
        fun x hx => h x (List.mem_cons_of_mem l hx)
      have h1 : lineChunk l ≠ [] := lineChunk_ne_nil l
      have h2 : lineChunk l ≠ ['\r', '\n'] := lineChunk_eq_crlf l hne
      rcases hso : splitOnceColonSpace l.data with _ | ⟨kv⟩
      · -- line without ": " is skipped
        obtain ⟨hs, hrec⟩ := ih req hrest
        refine ⟨hs, ?_⟩
        simp only [List.map_cons, List.cons_append]
        rw [show lineChunk l = l.data ++ ['\r', '\n'] from rfl]
        simp [readLoop, h1, h2, hne, stripCRLF_append, hso] at hrec ⊢
        exact hrec
      · -- header line appended; name is not Content-Length so the flag stays false
        have hname : (String.mk kv.1 == "Content-Length") = false := by
          have := hcl
          simp [keyNotCL, hso] at this
          simpa using this
        obtain ⟨hs, hrec⟩ :=
          ih { req with headers := req.headers ++ [(String.mk kv.1, String.mk kv.2)] } hrest
        refine ⟨(String.mk kv.1, String.mk kv.2) :: hs, ?_⟩
        simp only [List.map_cons, List.cons_append]
        rw [show lineChunk l = l.data ++ ['\r', '\n'] from rfl]
        simp [readLoop, h1, h2, hne, stripCRLF_append, hso, hname] at hrec ⊢
        simpa using hrec

theorem headerBlock_data (hls : List String) :
    (headerBlock hls).data = (hls.map lineChunk).flatten := by
  induction hls with
  | nil => rfl
  | cons l t ih => simp [headerBlock, lineChunk, ih]

theorem toLines_chunks (hls : List String) (rest : List Char)
    (h : ∀ l ∈ hls, '\n' ∉ l.data) :
    toLines ((hls.map lineChunk).flatten ++ rest) = hls.map lineChunk ++ toLines rest := by
  induction hls with
  | nil => simp
  | cons l t ih =>
      have h1 : '\n' ∉ l.data := h l (List.mem_cons_self l t)
      have hrest : ∀ x ∈ t, '\n' ∉ x.data := fun x hx => h x (List.mem_cons_of_mem l hx)
      simp only [List.map_cons, List.flatten_cons, List.cons_append, List.append_assoc]
      rw [show lineChunk l = l.data ++ ['\r', '\n'] from rfl]
      rw [List.append_assoc]
      have := toLines_cons_line l.data ((t.map lineChunk).flatten ++ rest) h1
      simp only [List.cons_append, List.nil_append] at this ⊢
      rw [this, ih hrest]

theorem toLines_mkInput (rl : String) (hls : List String) (tr : String)
    (h1 : '\n' ∉ rl.data) (h : ∀ l ∈ hls, '\n' ∉ l.data) :
    toLines (mkInput rl hls tr).data =
      lineChunk rl :: (hls.map lineChunk ++ ['\r', '\n'] :: toLines tr.data) := by
  have hdata : (mkInput rl hls tr).data =
      rl.data ++ '\r' :: '\n' :: ((hls.map lineChunk).flatten ++ ('\r' :: '\n' :: tr.data)) := by
    simp [mkInput, String.data_append, headerBlock_data]
  rw [hdata, toLines_cons_line rl.data _ h1, toLines_chunks hls _ h]
  have hblank : toLines ('\r' :: '\n' :: tr.data) = ['\r', '\n'] :: toLines tr.data := by
    have := toLines_cons_line [] tr.data (by simp)
    simpa using this
  rw [hblank]
  rfl

/-- C4: for a `Response` with `body = some b` and `content_type = some t`
the serializer writes exactly the status line (`"HTTP/1.1 "` plus the
status text, `"\r\n"`-terminated), then `"Content-Type: " ++ t` and
`"Content-Length: " ++ toString b.length`, each terminated by a bare
`"\n"`, then the `"\r\n"` blank line, then the body bytes; for a `Response`
with no body it writes exactly the status line and the blank line; and the
status text is the fixed string for each of the four statuses. -/
theorem C4_serializer_format :
    (∀ (s : Status) (b t : String),
        write_response { status := s, body := some b, content_type := some t } =
          "HTTP/1.1 " ++ statusText s ++ "\r\n" ++ "Content-Type: " ++ t ++ "\n" ++
            "Content-Length: " ++ toString b.length ++ "\n" ++ "\r\n" ++ b) ∧
    (∀ (s : Status) (ct : Option String),
        write_response { status := s, body := none, content_type := ct } =
          "HTTP/1.1 " ++ statusText s ++ "\r\n" ++ "\r\n") ∧
    statusText .OK = "200 OK" ∧ statusText .Created = "201 Created" ∧
    statusText .NotFound = "404 Not Found" ∧
    statusText .InternalServerError = "500 Internal Server Error" := by
  refine ⟨?_, ?_, rfl, rfl, rfl, rfl⟩
  · intro s b t
    show String.mk _ = String.mk _
    simp [write_response, String.data_append]
  · intro s ct
    cases ct <;> (show String.mk _ = String.mk _; simp [write_response, String.data_append])

/-- C9: the serializer emits the `Content-Type`/`Content-Length` header
lines only when body and content type are both present: with exactly one of
the two set, neither header line appears, while raw body bytes are still
written whenever the body is present; consequently the `201 Created`
response of the file-write handler (content type set, body absent)
serializes as the status line and blank line alone. -/
theorem C9_header_gating :
    (∀ (s : Status) (b : String),
        write_response { status := s, body := some b, content_type := none } =
          "HTTP/1.1 " ++ statusText s ++ "\r\n" ++ "\r\n" ++ b) ∧
    (∀ (s : Status) (t : String),
        write_response { status := s, body := none, content_type := some t } =
          "HTTP/1.1 " ++ statusText s ++ "\r\n" ++ "\r\n") ∧
    (∀ (req : Request) (dir : Option String) (fs : FS) (r : Response) (fs2 : FS),
        handle_post_file req dir fs = .ok (r, fs2) → r.status = .Created →
        write_response r = "HTTP/1.1 201 Created" ++ "\r\n" ++ "\r\n") := by
  refine ⟨?_, ?_, ?_⟩
  · intro s b
    show String.mk _ = String.mk _
    simp [write_response, String.data_append]
  · intro s t
    show String.mk _ = String.mk _
    simp [write_response, String.data_append]
  · intro req dir fs r fs2 hok hst
    rcases hsp : (splitChar '/' req.path.data).drop 2 with _ | ⟨fn, rest⟩ <;>
      simp [handle_post_file, hsp] at hok
    rcases dir with _ | d
    · simp at hok
    · simp at hok
      rcases hw : fsWrite fs (pathJoin d (String.mk fn)) req.body with _ | fs3 <;>
        simp [hw] at hok
      · rw [← hok.1] at hst
        simp at hst
      · rw [← hok.1]
        rfl

/-- C10: when the connection yields zero bytes before any data, the parser
returns `Ok` with a `Request` whose method, path, version and body are all
empty and whose header list is empty, and the connection handler serves it
through the not-found fallback, writing a 404 response with no body. -/
theorem C10_empty_stream :
    ∀ (dir : Option String) (fs : FS),
      read_request "" = .ok { method := "", path := "", http_info := "", headers := [], body := "" } ∧
      handle_connection "" dir fs = .ok ("HTTP/1.1 404 Not Found" ++ "\r\n" ++ "\r\n", fs) := by
  intro dir fs
  exact ⟨rfl, rfl⟩

/-- C9 witness: the third conjunct instantiated at a concrete successful
file write. -/
theorem C9_header_gating_witness :
    write_response { status := .Created, body := none,
                     content_type := some "application/octet-stream" } =
      "HTTP/1.1 201 Created" ++ "\r\n" ++ "\r\n" :=
  C9_header_gating.2.2
    ⟨"POST", "/files/x", "HTTP/1.1", [], "B"⟩
    (some "d") ⟨[], []⟩
    ⟨.Created, none, some "application/octet-stream"⟩
    ⟨[("d/x", "B")], []⟩
    (by decide) rfl

/-- C7: `get_header` returns the value of the first header (in arrival
order) whose name equals the key by case-sensitive exact string equality,
and `none` when no header has that name. -/
theorem C7_get_header_first_match :
    (∀ (req : Request) (k v : String) (pre post : List (String × String)),
        req.headers = pre ++ (k, v) :: post → (∀ q ∈ pre, q.1 ≠ k) →
        req.get_header k = some v) ∧
    (∀ (req : Request) (k : String), (∀ q ∈ req.headers, q.1 ≠ k) →
        req.get_header k = none) := by
  constructor
  · intro req k v pre post hh hpre
    show getHeaderGo k req.headers = some v
    rw [hh]
    clear hh
    induction pre with
    | nil => simp [getHeaderGo]
    | cons q t ih =>
        have hq : q.1 ≠ k := hpre q (List.mem_cons_self q t)
        have ht : ∀ x ∈ t, x.1 ≠ k := fun x hx => hpre x (List.mem_cons_of_mem q hx)
        cases q with
        | mk qk qv =>
            simp only [List.cons_append, getHeaderGo]
            rw [if_neg fun hkq => hq hkq.symm]
            exact ih ht
  · intro req k hnone
    show getHeaderGo k req.headers = none
    revert hnone
    generalize req.headers = hs
    intro hnone
    induction hs with
    | nil => rfl
    | cons q t ih =>
        have hq : q.1 ≠ k := hnone q (List.mem_cons_self q t)
        have ht : ∀ x ∈ t, x.1 ≠ k := fun x hx => hnone x (List.mem_cons_of_mem q hx)
        cases q with
        | mk qk qv =>
            simp only [getHeaderGo]
            rw [if_neg fun hkq => hq hkq.symm]
            exact ih ht

/-- C7 witness: duplicate `Content-Length` headers resolve to the first
occurrence, and lookup is case-sensitive (`content-length` does not match). -/
theorem C7_get_header_first_match_witness :
    Request.get_header ⟨"GET", "/", "HTTP/1.1", [("A", "1"), ("Content-Length", "2"), ("Content-Length", "3")], ""⟩ "Content-Length" = some "2" ∧
    Request.get_header ⟨"GET", "/", "HTTP/1.1", [("content-length", "5")], ""⟩ "Content-Length" = none := by
  constructor
  · exact C7_get_header_first_match.1
      ⟨"GET", "/", "HTTP/1.1", [("A", "1"), ("Content-Length", "2"), ("Content-Length", "3")], ""⟩
      "Content-Length" "2" [("A", "1")] [("Content-Length", "3")] rfl (by decide)
  · exact C7_get_header_first_match.2
      ⟨"GET", "/", "HTTP/1.1", [("content-length", "5")], ""⟩
      "Content-Length" (by decide)

/-- C8: for any request whose path extends the `/echo/` prefix, the echo
handler returns 200 with content type `text/plain` and a body equal,
character for character with no escaping or decoding, to the path remainder
after `/echo/` (the segments after the prefix rejoined with `/`); in
particular `/echo/foo/bar` yields body `foo/bar`. -/
theorem C8_echo :
    (∀ (m v b r : String) (hs : List (String × String)),
        handle_get_echo ⟨m, "/echo/" ++ r, v, hs, b⟩ =
          .ok { status := .OK, body := some r, content_type := some "text/plain" }) ∧
    handle_get_echo ⟨"GET", "/echo/foo/bar", "HTTP/1.1", [], ""⟩ =
      .ok { status := .OK, body := some "foo/bar", content_type := some "text/plain" } := by
  constructor
  · intro m v b r hs
    have hdata : ("/echo/" ++ r).data = '/' :: 'e' :: 'c' :: 'h' :: 'o' :: '/' :: r.data := by
      simp [String.data_append]
    simp only [handle_get_echo, hdata, splitChar_echo]
    have hdrop : (([] : List Char) :: ['e', 'c', 'h', 'o'] :: splitChar '/' r.data).drop 2 =
        splitChar '/' r.data := rfl
    rw [hdrop, joinChar_splitChar]
  · rfl

/-- C1 counterexample: on a successful write the file-write handler returns
a response with `content_type = some "application/octet-stream"` and
`body = none`, so `content_type` is set while `body` is not — the claimed
iff-invariant fails on this response. -/
theorem C1_counterexample :
    handle_post_file ⟨"POST", "/files/x", "HTTP/1.1", [("Content-Length", "1")], "B"⟩
        (some "d") ⟨[], []⟩ =
      .ok (⟨.Created, none, some "application/octet-stream"⟩, ⟨[("d/x", "B")], []⟩) ∧
    ¬ ((Response.content_type ⟨.Created, none, some "application/octet-stream"⟩).isSome ↔
        (Response.body ⟨.Created, none, some "application/octet-stream"⟩).isSome) := by
  exact ⟨by decide, by decide⟩

/-- C1 (amended): every response of the four GET handlers and the
not-found fallback satisfies `content_type` is set iff `body` is set; the
file-write handler always returns `body = none`, with
`content_type = some "application/octet-stream"` on the `201 Created`
success (violating the iff) and `content_type = none` otherwise. -/
theorem C1_amended :
    ∀ (req : Request) (dir : Option String) (fs : FS),
      (∀ r, handle_get_root req = .ok r → (r.content_type.isSome ↔ r.body.isSome)) ∧
      (∀ r, handle_get_echo req = .ok r → (r.content_type.isSome ↔ r.body.isSome)) ∧
      (∀ r, handle_get_user_agent req = .ok r → (r.content_type.isSome ↔ r.body.isSome)) ∧
      (∀ r, handle_get_file req dir fs = .ok r → (r.content_type.isSome ↔ r.body.isSome)) ∧
      (∀ r fs2, handle_post_file req dir fs = .ok (r, fs2) →
        r.body = none ∧
        (r.status = .Created → r.content_type = some "application/octet-stream") ∧
        (r.status ≠ .Created → r.content_type = none)) ∧
      (notFoundResponse.content_type.isSome ↔ notFoundResponse.body.isSome) := by
  intro req dir fs
  refine ⟨?_, ?_, ?_, ?_, ?_, by decide⟩
  · intro r h
    simp [handle_get_root] at h
    subst h
    rfl
  · intro r h
    simp [handle_get_echo] at h
    subst h
    rfl
  · intro r h
    simp [handle_get_user_agent] at h
    subst h
    rfl
  · intro r h
    rcases hsp : (splitChar '/' req.path.data).drop 2 with _ | ⟨fn, rest⟩ <;>
      simp [handle_get_file, hsp] at h
    rcases dir with _ | d
    · simp at h
    · simp at h
      rcases hr : fsRead fs (pathJoin d (String.mk fn)) with b | _ | _ <;>
        simp [hr] at h <;> subst h <;> rfl
  · intro r fs2 h
    rcases hsp : (splitChar '/' req.path.data).drop 2 with _ | ⟨fn, rest⟩ <;>
      simp [handle_post_file, hsp] at h
    rcases dir with _ | d
    · simp at h
    · simp at h
      rcases hw : fsWrite fs (pathJoin d (String.mk fn)) req.body with _ | fs3 <;>
        simp [hw] at h
      · rw [← h.1]
        refine ⟨rfl, ?_, ?_⟩ <;> intro hst <;> simp at hst ⊢
      · rw [← h.1]
        refine ⟨rfl, ?_, ?_⟩ <;> intro hst <;> simp at hst ⊢

/-- C1 amended witness: the file-write component instantiated at a concrete
successful write. -/
theorem C1_amended_witness :
    (Response.body ⟨.Created, none, some "application/octet-stream"⟩ = none) ∧
    (Response.content_type ⟨.Created, none, some "application/octet-stream"⟩ =
      some "application/octet-stream") := by
  have h := (C1_amended ⟨"POST", "/files/x", "HTTP/1.1", [], "B"⟩ (some "d") ⟨[], []⟩).2.2.2.2.1
    ⟨.Created, none, some "application/octet-stream"⟩ ⟨[("d/x", "B")], []⟩ (by decide)
  exact ⟨h.1, h.2.1 rfl⟩

/-- C3: whenever the first chunk the stream yields (which is nonempty and
not the bare blank line) strips its trailing `"\r\n"` to a line that does
not split on single spaces into exactly three tokens, the parser panics
with the fixed message, never returns a `Request`, and the connection
handler propagates the panic, so no partially-populated `Request` ever
reaches a handler. -/
theorem C3_bad_request_line :
    ∀ (input : String) (buf : List Char) (rest : List (List Char)) (l : List Char),
      toLines input.data = buf :: rest →
      buf ≠ ['\r', '\n'] →
      stripCRLF buf = some l →
      (splitChar ' ' l).length ≠ 3 →
      read_request input = .panicked "Bad general-header format" ∧
      (∀ req, read_request input ≠ .ok req) ∧
      (∀ (dir : Option String) (fs : FS),
        handle_connection input dir fs = .panicked "Bad general-header format") := by
  intro input buf rest l hto hcrlf hstrip hlen
  have hbne : buf ≠ [] := by
    intro h
    rw [h] at hstrip
    simp [stripCRLF] at hstrip
  have hloop : readLoop (buf :: rest) true false emptyRequest =
      .panicked "Bad general-header format" := by
    simp only [readLoop, if_neg hbne, if_neg hcrlf, hstrip]
    rcases hsp : splitChar ' ' l with _ | ⟨a, t1⟩
    · rfl
    rcases t1 with _ | ⟨b, t2⟩
    · rfl
    rcases t2 with _ | ⟨c, t3⟩
    · rfl
    rcases t3 with _ | ⟨d, t4⟩
    · rw [hsp] at hlen
      simp at hlen
    · rfl
  have hrr : read_request input = .panicked "Bad general-header format" := by
    simp only [read_request, hto, hloop]
  refine ⟨hrr, ?_, ?_⟩
  · intro req h
    rw [hrr] at h
    exact RResult.noConfusion h
  · intro dir fs
    simp only [handle_connection, hrr]

/-- C3 witness: a one-token request line. -/
theorem C3_bad_request_line_witness :
    read_request "HELLO\r\n" = .panicked "Bad general-header format" :=
  (C3_bad_request_line "HELLO\r\n" ['H', 'E', 'L', 'L', 'O', '\r', '\n'] []
    ['H', 'E', 'L', 'L', 'O'] (by decide) (by decide) (by decide) (by decide)).1

/-- C2 counterexample: a `GET /files/...` connection with no configured
base directory makes `handle_connection` return the handler's `Err` — the
connection is abandoned before `write_response`, so no `500` (nor any
other) response is written to the client. -/
theorem C2_counterexample :
    handle_connection "GET /files/anything HTTP/1.1\r\n\r\n" none ⟨[], []⟩ =
      .err "error getting directory path" := by
  decide

/-- C2 (amended): for every parsed `GET` request whose path has prefix
`/files/`, when no base directory is configured the file handler fails with
`Err("error getting directory path")` and `handle_connection` returns that
error without writing any response bytes; the thread does not panic and the
process does not crash (the spawning loop catches and logs the error). -/
theorem C2_amended :
    ∀ (input : String) (fs : FS) (req : Request),
      read_request input = .ok req →
      req.method = "GET" →
      strStartsWith req.path "/files/" = true →
      handle_connection input none fs = .err "error getting directory path" := by
  intro input fs req hrr hm hsw
  obtain ⟨r, hshape⟩ := files_path_shape req.path hsw
  have hnotroot : ¬ (req.method = "GET" ∧ req.path = "/") := by
    rintro ⟨-, hp⟩
    rw [hp] at hshape
    simp at hshape
  have hnotecho : ¬ (req.method = "GET" ∧ strStartsWith req.path "/echo/" = true) := by
    rintro ⟨-, he⟩
    have : "/echo/".data.isPrefixOf req.path.data = true := he
    rw [hshape] at this
    simp [List.isPrefixOf] at this
  have hnotua : ¬ (req.method = "GET" ∧ req.path = "/user-agent") := by
    rintro ⟨-, hp⟩
    rw [hp] at hshape
    have : ("/user-agent".data).take 2 = ('/' :: 'f' :: 'i' :: 'l' :: 'e' :: 's' :: '/' :: r).take 2 :=
      congrArg (List.take 2) hshape
    simp at this
  have hfiles : req.method = "GET" ∧ strStartsWith req.path "/files/" = true := ⟨hm, hsw⟩
  have hgf : handle_get_file req none fs = .err "error getting directory path" := by
    have hdrop : (splitChar '/' req.path.data).drop 2 = splitChar '/' r := by
      rw [hshape, splitChar_files]
      rfl
    rcases hs : splitChar '/' r with _ | ⟨fn, t⟩
    · exact absurd hs (splitChar_ne_nil '/' r)
    · rw [hs] at hdrop
      simp [handle_get_file, hdrop]
  simp only [handle_connection, hrr, if_neg hnotroot, if_neg hnotecho, if_neg hnotua,
    if_pos hfiles, hgf]
  rfl

/-- C2 amended witness: the amended statement at a concrete connection. -/
theorem C2_amended_witness :
    handle_connection "GET /files/x HTTP/1.1\r\n\r\n" none ⟨[("x", "B")], []⟩ =
      .err "error getting directory path" :=
  C2_amended "GET /files/x HTTP/1.1\r\n\r\n" ⟨[("x", "B")], []⟩
    ⟨"GET", "/files/x", "HTTP/1.1", [], ""⟩ (by decide) rfl (by decide)

/-- C5: writing `B` via `POST /files/x` (an unconditional overwrite of the
resolved path, which succeeds whenever that path is not I/O-broken) and
then handling `GET /files/x` against the resulting filesystem returns
status 200 with content type `application/octet-stream` and body exactly
`B`. -/
theorem C5_roundtrip :
    ∀ (x B d : String) (m1 v1 : String) (hs1 : List (String × String))
      (m2 v2 b2 : String) (hs2 : List (String × String)) (fs : FS),
      pathJoin d (String.mk ((splitChar '/' x.data).headD [])) ∉ fs.broken →
      ∃ fs2,
        handle_post_file ⟨m1, "/files/" ++ x, v1, hs1, B⟩ (some d) fs =
          .ok (⟨.Created, none, some "application/octet-stream"⟩, fs2) ∧
        handle_get_file ⟨m2, "/files/" ++ x, v2, hs2, b2⟩ (some d) fs2 =
          .ok ⟨.OK, some B, some "application/octet-stream"⟩ := by
  intro x B d m1 v1 hs1 m2 v2 b2 hs2 fs hbroken
  have hdata : ("/files/" ++ x).data = '/' :: 'f' :: 'i' :: 'l' :: 'e' :: 's' :: '/' :: x.data := by
    simp [String.data_append]
  rcases hs : splitChar '/' x.data with _ | ⟨fn, t⟩
  · exact absurd hs (splitChar_ne_nil '/' x.data)
  have hdrop : (splitChar '/' ('/' :: 'f' :: 'i' :: 'l' :: 'e' :: 's' :: '/' :: x.data)).drop 2 =
      fn :: t := by
    rw [splitChar_files, hs]
    rfl
  have hfn : (splitChar '/' x.data).headD [] = fn := by rw [hs]; rfl
  rw [hfn] at hbroken
  have hw : fsWrite fs (pathJoin d (String.mk fn)) B =
      some { fs with files := (pathJoin d (String.mk fn), B) :: fs.files } := by
    simp [fsWrite, hbroken]
  refine ⟨{ fs with files := (pathJoin d (String.mk fn), B) :: fs.files }, ?_, ?_⟩
  · simp [handle_post_file, hdata, hdrop, hw]
  · have hr : fsRead { fs with files := (pathJoin d (String.mk fn), B) :: fs.files }
        (pathJoin d (String.mk fn)) = .ok B := by
      simp [fsRead, hbroken, lookupStore]
    simp [handle_get_file, hdata, hdrop, hr]

/-- C5 witness: the round trip at a concrete filename, body, directory and
filesystem. -/
theorem C5_roundtrip_witness :
    pathJoin "d" (String.mk ((splitChar '/' "x".data).headD [])) ∉ FS.broken ⟨[], []⟩ ∧
    ∃ fs2,
      handle_post_file ⟨"POST", "/files/" ++ "x", "HTTP/1.1", [], "hello"⟩ (some "d") ⟨[], []⟩ =
        .ok (⟨.Created, none, some "application/octet-stream"⟩, fs2) ∧
      handle_get_file ⟨"GET", "/files/" ++ "x", "HTTP/1.1", [], ""⟩ (some "d") fs2 =
        .ok ⟨.OK, some "hello", some "application/octet-stream"⟩ :=
  ⟨by decide,
   C5_roundtrip "x" "hello" "d" "POST" "HTTP/1.1" [] "GET" "HTTP/1.1" "" [] ⟨[], []⟩ (by decide)⟩

theorem readLoop_header_step (l : List Char) (chunks : List (List Char)) (hb : Bool)
    (req : Request) (hne : l ≠ []) (kv : List Char × List Char)
    (hso : splitOnceColonSpace l = some kv) :
    readLoop ((l ++ ['\r', '\n']) :: chunks) false hb req =
      readLoop chunks false (hb || (String.mk kv.1 == "Content-Length"))
        { req with headers := req.headers ++ [(String.mk kv.1, String.mk kv.2)] } := by
  have h1 : l ++ ['\r', '\n'] ≠ [] := by simp
  have h2 : l ++ ['\r', '\n'] ≠ ['\r', '\n'] := by
    intro hc
    have hlen := congrArg List.length hc
    simp at hlen
    exact hne hlen
  simp [readLoop, h1, h2, stripCRLF_append, hso]

theorem splitOnce_content_length (v : String) :
    splitOnceColonSpace (("Content-Length: " ++ v).data) =
      some ("Content-Length".data, v.data) := by
  rw [String.data_append]
  rfl

/-- C6: a stream whose well-formed header block contains no header line
whose parsed name is exactly `Content-Length` parses to `Ok` with an empty
body — the body-read path is never taken even when bytes follow the blank
line; conversely a header literally named `Content-Length` makes the parser
drain everything after the blank line as the body regardless of the
header's value, so only the exact-case presence of the name, never its
numeric value, decides whether the body is read. -/
theorem C6_content_length_presence :
    (∀ (rl : String) (hls : List String) (tr : String) (mt pt vt : List Char),
        '\n' ∉ rl.data → rl.data ≠ [] →
        splitChar ' ' rl.data = [mt, pt, vt] →
        (∀ l ∈ hls, '\n' ∉ l.data ∧ l.data ≠ [] ∧ keyNotCL l = true) →
        resultBody (read_request (mkInput rl hls tr)) = some "") ∧
    (∀ (v tr : String), '\n' ∉ v.data →
        resultBody (read_request (mkInput "GET / HTTP/1.1" ["Content-Length: " ++ v] tr)) =
          some tr) := by
  constructor
  · intro rl hls tr mt pt vt hnl hne hsplit hgood
    have hto := toLines_mkInput rl hls tr hnl (fun l hl => (hgood l hl).1)
    have hfirst := readLoop_first rl.data (hls.map lineChunk ++ ['\r', '\n'] :: toLines tr.data)
      false emptyRequest hne mt pt vt hsplit
    obtain ⟨hs, hloop⟩ := readLoop_headers_noCL hls (['\r', '\n'] :: toLines tr.data)
      { emptyRequest with method := String.mk mt, path := String.mk pt, http_info := String.mk vt }
      (fun l hl => ⟨(hgood l hl).2.1, (hgood l hl).2.2⟩)
    simp only [read_request, hto]
    rw [show lineChunk rl = rl.data ++ ['\r', '\n'] from rfl]
    rw [hfirst, hloop, readLoop_blank]
    rfl
  · intro v tr hnl
    have hnlh : '\n' ∉ ("Content-Length: " ++ v).data := by
      rw [String.data_append]
      intro hm
      rcases List.mem_append.mp hm with h | h
      · simp at h
      · exact hnl h
    have hto := toLines_mkInput "GET / HTTP/1.1" ["Content-Length: " ++ v] tr
      (by decide) (by intro l hl; simp at hl; rw [hl]; exact hnlh)
    have hto2 : toLines (mkInput "GET / HTTP/1.1" ["Content-Length: " ++ v] tr).data =
        ("GET / HTTP/1.1".data ++ ['\r', '\n']) ::
          ((("Content-Length: " ++ v).data ++ ['\r', '\n']) ::
            (['\r', '\n'] :: toLines tr.data)) := by
      rw [hto]
      rfl
    have hfirst := readLoop_first "GET / HTTP/1.1".data
      ((("Content-Length: " ++ v).data ++ ['\r', '\n']) :: (['\r', '\n'] :: toLines tr.data))
      false emptyRequest (by decide)
      ['G', 'E', 'T'] ['/'] ['H', 'T', 'T', 'P', '/', '1', '.', '1'] (by decide)
    have hne2 : ("Content-Length: " ++ v).data ≠ [] := by
      rw [String.data_append]
      simp
    simp only [read_request, hto2]
    rw [hfirst]
    rw [readLoop_header_step (("Content-Length: " ++ v).data)
      (['\r', '\n'] :: toLines tr.data) false _ hne2 ("Content-Length".data, v.data)
      (splitOnce_content_length v)]
    rw [readLoop_blank]
    show some (String.mk (toLines tr.data).flatten) = some tr
    rw [toLines_flatten]

/-- C6 witness: with only a lowercase `content-length` header the body stays
empty despite trailing bytes; with an exact `Content-Length` header (value
`0`) the trailing bytes are drained as the body. -/
theorem C6_content_length_presence_witness :
    keyNotCL "content-length: 5" = true ∧
    resultBody (read_request (mkInput "GET / HTTP/1.1" ["content-length: 5"] "XYZ")) = some "" ∧
    resultBody (read_request (mkInput "GET / HTTP/1.1" ["Content-Length: " ++ "0"] "DATA")) =
      some "DATA" := by
  refine ⟨by decide, ?_, ?_⟩
  · exact C6_content_length_presence.1 "GET / HTTP/1.1" ["content-length: 5"] "XYZ"
      ['G', 'E', 'T'] ['/'] ['H', 'T', 'T', 'P', '/', '1', '.', '1']
      (by decide) (by decide) (by decide) (by decide)
  · exact C6_content_length_presence.2 "0" "DATA" (by decide)
